import Mathlib

/-!
Shallow embedding of the `owned-singleton` crate: the `#[Singleton]` attribute
macro (`macros/src/lib.rs`), the library trait `Singleton` with its default
`unwrap` method (`src/lib.rs`), and the `NotSendOrSync` alias (`src/export.rs`).
Machine integers are modelled as `Nat` with explicit `% 2 ^ w` where the Rust
code works at a fixed width; the alias synthesised by `mk_ident` is passed to
the expansion as a parameter because it depends on the wall clock.
-/

namespace OwnedSingleton

/-- Rust types mentioned by the generated code. The `named` constructor carries
the facts rustc would know about an opaque user type: its size in bytes and
whether it implements the `Send` and `Sync` auto traits. -/
inductive RustTy where
  | unitTy : RustTy
  | u32 : RustTy
  | constPtr (pointee : RustTy) : RustTy
  | phantomData (t : RustTy) : RustTy
  | named (nm : String) (sz : Nat) (send sync : Bool) : RustTy
deriving DecidableEq

/-- Rust auto-trait rule for `Send`: raw pointers are not `Send`, `PhantomData<T>`
is `Send` exactly when `T` is, primitive scalars are `Send`. -/
def RustTy.isSend : RustTy → Bool
  | .unitTy => true
  | .u32 => true
  | .constPtr _ => false
  | .phantomData t => t.isSend
  | .named _ _ s _ => s

/-- Rust auto-trait rule for `Sync`, symmetric to `RustTy.isSend`. -/
def RustTy.isSync : RustTy → Bool
  | .unitTy => true
  | .u32 => true
  | .constPtr _ => false
  | .phantomData t => t.isSync
  | .named _ _ _ y => y

/-- Size in bytes of a modelled Rust type (64-bit target); `PhantomData` is
zero-sized. -/
def RustTy.size : RustTy → Nat
  | .unitTy => 0
  | .u32 => 4
  | .constPtr _ => 8
  | .phantomData _ => 0
  | .named _ sz _ _ => sz

/-- Model of `src/export.rs` line 8: `pub type NotSendOrSync = PhantomData<*const ()>;`. -/
def NotSendOrSync : RustTy := .phantomData (.constPtr .unitTy)

/-- Parsed attribute arguments (`macros/src/lib.rs` lines 111-114). -/
structure Args where
  send : Bool
  sync : Bool
deriving DecidableEq

/-- Fields of syn's `ItemStatic` that the macro reads: attributes, visibility,
presence of the `mut` keyword (`item.mutability.is_some()`), identifier,
declared type and initializer expression. syn's grammar for a `static` item
always includes an initializer. -/
structure ItemStatic where
  attrs : List String
  vis : String
  mutability : Bool
  ident : String
  ty : RustTy
  expr : String
deriving DecidableEq

/-- Candidate annotated item, before the `parse_macro_input!(input as ItemStatic)`
step: a static item, a function item, or anything else. -/
inductive RustItem where
  | staticItem (i : ItemStatic) : RustItem
  | fnItem (nm : String) : RustItem
  | otherItem (descr : String) : RustItem
deriving DecidableEq

/-- One item of the emitted token stream, with the data the `quote!` blocks of
`macros/src/lib.rs` lines 52-106 interpolate into it. For the `Singleton` trait
impl we record the list of methods the impl block itself defines and whether
its `get` returns a `*mut` raw pointer (line 68: `fn get() -> *mut Self::Type`). -/
inductive Item where
  | staticItem (attrs : List String) (exportName : String) (isMut : Bool)
      (nm : String) (ty : RustTy) (init : String) : Item
  | structItem (vis : String) (nm : String) (fields : List (String × RustTy)) : Item
  | singletonImpl (selfTy : String) (assocType : RustTy) (methods : List String)
      (getReturnsMutPtr : Bool) (storage : String) : Item
  | derefImpl (selfTy : String) (target : RustTy) (storage : String) : Item
  | stableDerefImpl (selfTy : String) : Item
  | sendImpl (selfTy : String) (bound : RustTy) : Item
  | syncImpl (selfTy : String) (bound : RustTy) : Item
  | derefMutImpl (selfTy : String) (storage : String) : Item
deriving DecidableEq

/-- Compile-time diagnostics of the macro: a shape error (the annotated item is
not a `static` declaration) or an argument error carrying the index of the
offending identifier and the message. -/
inductive ExpandError where
  | shape (msg : String) : ExpandError
  | argErr (ix : Nat) (msg : String) : ExpandError
deriving DecidableEq

/-- Model of `parse_macro_input!(input as ItemStatic)` (line 36): syn accepts
exactly a `static [mut] IDENT: TY = EXPR;` item and rejects anything else with
a parse (shape) diagnostic; the concrete message text lives in syn, outside
this repository. -/
def parseItemStatic : RustItem → Except String ItemStatic
  | .staticItem i => .ok i
  | .fnItem _ => .error "expected a static item"
  | .otherItem _ => .error "expected a static item"

/-- Recursive worker for `impl Parse for Args` (lines 116-148): walk the
comma-separated identifiers carrying the two seen-flags, and report the index
of the offending identifier together with the diagnostic text on failure. -/
def parseArgsFrom : List String → Nat → Bool → Bool → Except (Nat × String) Args
  | [], _, send, sync => .ok ⟨send, sync⟩
  | x :: xs, ix, send, sync =>
    if x = "Send" then
      if send then .error (ix, "this trait appears twice")
      else parseArgsFrom xs (ix + 1) true sync
    else if x = "Sync" then
      if sync then .error (ix, "this trait appears twice")
      else parseArgsFrom xs (ix + 1) send true
    else .error (ix, "expected one of: Send or Sync")

/-- Entry point of `impl Parse for Args` (lines 117-119): both flags start
false; the identifier list is scanned left to right. -/
def Args.parse (l : List String) : Except (Nat × String) Args :=
  parseArgsFrom l 0 false false

/-- Model of `check` (lines 151-155): the body is a TODO and always succeeds. -/
def check (_item : ItemStatic) : Except String Unit := .ok ()

/-- Code emitted by the macro body (lines 50-108) for a validated item: the
renamed storage (always `static mut`, line 55, re-exported under the symbol
`"IDENT::alias"`, line 51), the proxy struct with its single `NotSendOrSync`
field (line 57), the `Singleton` impl defining `new` and `get` (lines 59-71),
the `Deref` impl (lines 73-80), the `StableDeref` impl (line 82), then the
conditional `Send` (lines 85-89), `Sync` (lines 91-95) and `DerefMut`
(lines 97-106) impls, in that order. -/
def expand (item : ItemStatic) (args : Args) (a : String) : List Item :=
  [Item.staticItem item.attrs (item.ident ++ "::" ++ a) true a item.ty item.expr,
   Item.structItem item.vis item.ident [(a, NotSendOrSync)],
   Item.singletonImpl item.ident item.ty ["new", "get"] true a,
   Item.derefImpl item.ident item.ty a,
   Item.stableDerefImpl item.ident]
  ++ (if args.send then [Item.sendImpl item.ident item.ty] else [])
  ++ (if args.sync then [Item.syncImpl item.ident item.ty] else [])
  ++ (if item.mutability then [Item.derefMutImpl item.ident a] else [])

/-- Full attribute pipeline `Singleton` (lines 35-109): parse the annotated
item, parse the argument list, run `check`, then emit; on any failure return
the diagnostic and emit nothing. The synthesised alias is a parameter. -/
def Singleton (input : RustItem) (args : List String) (a : String) :
    Except ExpandError (List Item) := do
  let item ← (parseItemStatic input).mapError ExpandError.shape
  let parsed ← (Args.parse args).mapError fun e => ExpandError.argErr e.1 e.2
  let _ ← (check item).mapError ExpandError.shape
  pure (expand item parsed a)

/-- Item classifier: is this the proxy struct? -/
def Item.isStruct : Item → Bool
  | .structItem .. => true
  | _ => false

/-- Item classifier: is this the `DerefMut` impl? -/
def Item.isDerefMutImpl : Item → Bool
  | .derefMutImpl .. => true
  | _ => false

/-- Item classifier: is this the `Deref` impl? -/
def Item.isDerefImpl : Item → Bool
  | .derefImpl .. => true
  | _ => false

/-- Item classifier: is this the `Singleton` trait impl? -/
def Item.isSingletonImpl : Item → Bool
  | .singletonImpl .. => true
  | _ => false

/-- Item classifier: is this the renamed storage item? -/
def Item.isStatic : Item → Bool
  | .staticItem .. => true
  | _ => false

/-- Item classifier: is this an `unsafe impl Send` grant? -/
def Item.isSendImpl : Item → Bool
  | .sendImpl .. => true
  | _ => false

/-- Item classifier: is this an `unsafe impl Sync` grant? -/
def Item.isSyncImpl : Item → Bool
  | .syncImpl .. => true
  | _ => false

/-- Methods defined inside an impl item; only the `Singleton` trait impl
defines any (`new` and `get`). -/
def Item.singletonMethods : Item → List String
  | .singletonImpl _ _ ms _ _ => ms
  | _ => []

/-- Does an emitted item directly permit mutation of the storage: the
`Singleton` impl does when its `get` returns a `*mut` pointer, and the
`DerefMut` impl always does. -/
def Item.permitsMutation : Item → Bool
  | .singletonImpl _ _ _ mutPtr _ => mutPtr
  | .derefMutImpl .. => true
  | _ => false

/-- Total size in bytes of a struct's field list. -/
def fieldsSize (fs : List (String × RustTy)) : Nat :=
  (fs.map (fun f => f.2.size)).sum

/-- Rust auto-trait inference for a struct: `Send` is derived exactly when all
fields are `Send`. -/
def fieldsAutoSend (fs : List (String × RustTy)) : Bool :=
  fs.all (fun f => f.2.isSend)

/-- Rust auto-trait inference for a struct: `Sync` is derived exactly when all
fields are `Sync`. -/
def fieldsAutoSync (fs : List (String × RustTy)) : Bool :=
  fs.all (fun f => f.2.isSync)

/-- Model of a Rust reference value: the address it points at, whether it is a
mutable reference, and whether its lifetime is `'static`. -/
structure RefVal where
  addr : String
  isMut : Bool
  isStaticLifetime : Bool
deriving DecidableEq

/-- Model of `src/lib.rs` lines 95-100, the trait-level default method
`fn unwrap(self) -> &'static mut Self::Type { unsafe { &mut *Self::get() } }`:
it dereferences the raw pointer returned by `get` and yields a mutable
reference to that address; the signature promises the `'static` lifetime. -/
def SingletonTrait.unwrap (getResult : String) : RefVal :=
  { addr := getResult, isMut := true, isStaticLifetime := true }

/-- Model of `CALL_COUNT.fetch_add(1, Ordering::SeqCst)` (line 165): return the
current counter value and the incremented state. -/
def fetchAdd (st : Nat) : Nat × Nat := (st, st + 1)

/-- Counter state after `n` sequential `mk_ident` calls; the counter starts
at 0 (line 158). -/
def counterState : Nat → Nat
  | 0 => 0
  | n + 1 => (fetchAdd (counterState n)).2

/-- Counter value observed by the `n`-th sequential `mk_ident` call. -/
def countAt (n : Nat) : Nat := (fetchAdd (counterState n)).1

/-- Seed construction of `mk_ident` (lines 160-178): bytes 0-7 hold the
little-endian seconds (`u64`), bytes 8-11 the little-endian sub-second
nanoseconds (`u32`), bytes 12-15 the little-endian call counter cast to `u32`
(line 165: `as u32`). Each byte is `(value >> (i * 8)) & 0xFF`. -/
def mkSeed (secs nanos count : Nat) : List Nat :=
  ((List.range 8).map fun i => secs % 2 ^ 64 / 2 ^ (8 * i) % 256)
    ++ ((List.range 4).map fun i => nanos % 2 ^ 32 / 2 ^ (8 * i) % 256)
    ++ ((List.range 4).map fun i => count % 2 ^ 32 / 2 ^ (8 * i) % 256)

/-- Little-endian byte-list decoder, used to state that the seed faithfully
encodes its three components in disjoint byte ranges. -/
def decodeLE (l : List Nat) : Nat := l.foldr (fun b acc => b + 256 * acc) 0

/-- Character choice of `mk_ident` (lines 184-188), at the level of byte
values: a letter is `b'a' + r % 25` (hence in 97..121, the letters a-y), a
digit is `b'0' + r % 10` (hence in 48..57); `r` is the `u8` drawn from the
generator, modelled as an arbitrary natural reduced mod 256. -/
def identChar (isLetter : Bool) (r : Nat) : Nat :=
  if isLetter then 97 + r % 256 % 25 else 48 + r % 256 % 10

/-- Character loop of `mk_ident` (lines 181-189) over an abstract deterministic
generator state `σ` with draws `genBool` (for `rng.gen()` as `bool`) and
`genU8` (for `rng.gen::<u8>()`): at index `i`, the short-circuit
`i == 0 || rng.gen()` draws no boolean when `i == 0`; then one `u8` is drawn
in whichever branch was taken. `n` is the number of characters still to
produce. -/
def mkIdentChars {σ : Type} (genBool : σ → Bool × σ) (genU8 : σ → Nat × σ) :
    Nat → Nat → σ → List Nat
  | 0, _, _ => []
  | n + 1, i, st =>
    let p1 := if i == 0 then (true, st) else genBool st
    let p2 := genU8 p1.2
    identChar p1.1 p2.1 :: mkIdentChars genBool genU8 n (i + 1) p2.2

/-- Full character production of one `mk_ident` call: `(0..16).map(...)` with
the generator state freshly seeded from the 16-byte seed. -/
def mkIdentString {σ : Type} (genBool : σ → Bool × σ) (genU8 : σ → Nat × σ)
    (st : σ) : List Nat :=
  mkIdentChars genBool genU8 16 0 st

/-- Predicate for the letter range `mk_ident` can produce: the 25 lowercase
letters `a` (97) through `y` (121). -/
def isSeedLetter (c : Nat) : Bool := 97 ≤ c && c ≤ 121

/-- Predicate for the digit range `mk_ident` can produce: `0` (48) through
`9` (57). -/
def isSeedDigit (c : Nat) : Bool := 48 ≤ c && c ≤ 57

/-- Fixture: the immutable declaration `static FOO: u32 = 0;` of the crate
documentation, used for concrete counterexamples and witnesses. -/
def fooStatic : ItemStatic :=
  { attrs := [], vis := "", mutability := false, ident := "FOO", ty := .u32, expr := "0" }

/-- Fixture: a concrete toy generator state for witnesses, drawing booleans
and bytes from a simple arithmetic sequence. -/
def toyBool (st : Nat) : Bool × Nat := (st % 2 == 0, st + 1)

/-- Fixture: concrete byte draw for witnesses. -/
def toyU8 (st : Nat) : Nat × Nat := (st * 7 + 3, st + 1)

/-- C1: for every declaration accepted by the parser, the expansion emits
exactly one proxy struct, named exactly after the original identifier, holding
only the single marker field of type `NotSendOrSync = PhantomData<*const ()>`;
that field list is zero-sized and excludes the automatically derived `Send`
and `Sync` capabilities. -/
theorem claim1_single_zero_sized_proxy (item : ItemStatic) (args : Args) (a : String) :
    (expand item args a).filter Item.isStruct
      = [Item.structItem item.vis item.ident [(a, NotSendOrSync)]] ∧
    fieldsSize [(a, NotSendOrSync)] = 0 ∧
    fieldsAutoSend [(a, NotSendOrSync)] = false ∧
    fieldsAutoSync [(a, NotSendOrSync)] = false ∧
    NotSendOrSync = RustTy.phantomData (RustTy.constPtr RustTy.unitTy) := by
  refine ⟨?_, rfl, rfl, rfl, rfl⟩
  rcases args with ⟨s, y⟩
  cases s <;> cases y <;> cases hm : item.mutability <;>
    simp [expand, Item.isStruct, hm]

/-- C2: the `DerefMut` impl is emitted if and only if the source declaration
carries `static mut`, and in that case it is the single `DerefMut` impl of the
expansion; the `Deref` impl is emitted in both cases. -/
theorem claim2_derefmut_iff_mutable (item : ItemStatic) (args : Args) (a : String) :
    ((expand item args a).any Item.isDerefMutImpl = item.mutability) ∧
    ((expand item args a).filter Item.isDerefMutImpl
      = if item.mutability then [Item.derefMutImpl item.ident a] else []) ∧
    ((expand item args a).filter Item.isDerefImpl
      = [Item.derefImpl item.ident item.ty a]) := by
  rcases args with ⟨s, y⟩
  cases s <;> cases y <;> cases hm : item.mutability <;>
    simp [expand, hm, Item.isDerefMutImpl, Item.isDerefImpl]

/-- C5: the `unsafe impl Send where Ty: Send` grant is emitted if and only if
the `Send` argument was requested, bound on the declared storage type, and
symmetrically for `Sync`; each grant depends only on its own flag (the
equations hold for every value of the other flag). -/
theorem claim5_conditional_capability_grants (item : ItemStatic) (args : Args) (a : String) :
    ((expand item args a).filter Item.isSendImpl
      = if args.send then [Item.sendImpl item.ident item.ty] else []) ∧
    ((expand item args a).filter Item.isSyncImpl
      = if args.sync then [Item.syncImpl item.ident item.ty] else []) ∧
    ((expand item args a).any Item.isSendImpl = args.send) ∧
    ((expand item args a).any Item.isSyncImpl = args.sync) := by
  rcases args with ⟨s, y⟩
  cases s <;> cases y <;> cases hm : item.mutability <;>
    simp [expand, hm, Item.isSendImpl, Item.isSyncImpl]

/-- C8: the consuming `unwrap` is not re-emitted per declaration — the emitted
`Singleton` impl defines exactly the methods `new` and `get`, and no emitted
item defines an `unwrap` — and the trait-level default `unwrap` consumes the
proxy and returns a mutable reference, with `'static` lifetime, to the address
the raw-access operation `get` returns. -/
theorem claim8_unwrap_trait_level (item : ItemStatic) (args : Args) (a : String) (p : String) :
    (expand item args a).filter Item.isSingletonImpl
      = [Item.singletonImpl item.ident item.ty ["new", "get"] true a] ∧
    ((["new", "get"] : List String).contains "unwrap") = false ∧
    ((expand item args a).all fun it => !(it.singletonMethods.contains "unwrap")) = true ∧
    (SingletonTrait.unwrap p).addr = p ∧
    (SingletonTrait.unwrap p).isMut = true ∧
    (SingletonTrait.unwrap p).isStaticLifetime = true := by
  refine ⟨?_, by decide, ?_, rfl, rfl, rfl⟩ <;>
  · rcases args with ⟨s, y⟩
    cases s <;> cases y <;> cases hm : item.mutability <;>
      simp [expand, hm, Item.isSingletonImpl, Item.singletonMethods]

/-- C3 counterexample: for the immutable declaration `static FOO: u32 = 0;`
the generated unit still contains a mutation-permitting operation — the
`Singleton` impl whose `get` returns a `*mut` raw pointer — and the Access
Contract's `unwrap` still returns a mutable (`&'static mut`) reference, so the
claim that no reachable operation permits mutation is false. -/
theorem claim3_mutation_reachable_counterexample :
    fooStatic.mutability = false ∧
    ((expand fooStatic ⟨false, false⟩ "x7k").any Item.permitsMutation = true) ∧
    (SingletonTrait.unwrap "x7k").isMut = true := ⟨rfl, rfl, rfl⟩

/-- C3 amended: for an immutable source declaration no write-through
(`DerefMut`) impl is emitted, but the renamed storage is still declared
`static mut`, the `Singleton` impl's `get` still returns a `*mut` raw pointer,
and the trait-level `unwrap` still yields a mutable reference — so the absent
mutation surface is exactly the `DerefMut` impl, not all mutation. -/
theorem claim3_amended_no_derefmut_but_raw_mutation (item : ItemStatic) (args : Args)
    (a : String) (h : item.mutability = false) :
    ((expand item args a).any Item.isDerefMutImpl = false) ∧
    ((expand item args a).filter Item.isStatic
      = [Item.staticItem item.attrs (item.ident ++ "::" ++ a) true a item.ty item.expr]) ∧
    ((expand item args a).filter (fun it => it.permitsMutation)
      = [Item.singletonImpl item.ident item.ty ["new", "get"] true a]) ∧
    (SingletonTrait.unwrap a).isMut = true := by
  rcases args with ⟨s, y⟩
  cases s <;> cases y <;>
    simp [expand, h, Item.isDerefMutImpl, Item.isStatic, Item.permitsMutation,
      SingletonTrait.unwrap]

/-- C3 amended, witness at the concrete immutable declaration `fooStatic`. -/
theorem claim3_amended_witness :
    ((expand fooStatic ⟨false, false⟩ "q1" ).any Item.isDerefMutImpl = false) ∧
    ((expand fooStatic ⟨false, false⟩ "q1").filter Item.isStatic
      = [Item.staticItem [] "FOO::q1" true "q1" RustTy.u32 "0"]) ∧
    ((expand fooStatic ⟨false, false⟩ "q1").filter (fun it => it.permitsMutation)
      = [Item.singletonImpl "FOO" RustTy.u32 ["new", "get"] true "q1"]) ∧
    (SingletonTrait.unwrap "q1").isMut = true :=
  claim3_amended_no_derefmut_but_raw_mutation fooStatic ⟨false, false⟩ "q1" rfl

/-- C9: when the annotated item is not a static declaration (a function item,
or anything else), the pipeline fails with the shape diagnostic and emits no
items at all. -/
theorem claim9_shape_error_no_output (nm descr : String) (args : List String) (a : String) :
    Singleton (.fnItem nm) args a = .error (.shape "expected a static item") ∧
    Singleton (.otherItem descr) args a = .error (.shape "expected a static item") ∧
    (∀ out, Singleton (.fnItem nm) args a ≠ .ok out) := by
  refine ⟨rfl, rfl, fun out h => ?_⟩
  rw [show Singleton (.fnItem nm) args a = .error (.shape "expected a static item") from rfl] at h
  exact Except.noConfusion h

/-- C9 witness at a concrete function item. -/
theorem claim9_witness :
    Singleton (.fnItem "main") ["Send"] "ab" = .error (.shape "expected a static item") :=
  (claim9_shape_error_no_output "main" "d" ["Send"] "ab").1

/-- Unrolled form of the three byte loops of the seed construction. -/
theorem mkSeed_eq (s n c : Nat) :
    mkSeed s n c =
      [s % 2 ^ 64 / 2 ^ (8 * 0) % 256, s % 2 ^ 64 / 2 ^ (8 * 1) % 256,
       s % 2 ^ 64 / 2 ^ (8 * 2) % 256, s % 2 ^ 64 / 2 ^ (8 * 3) % 256,
       s % 2 ^ 64 / 2 ^ (8 * 4) % 256, s % 2 ^ 64 / 2 ^ (8 * 5) % 256,
       s % 2 ^ 64 / 2 ^ (8 * 6) % 256, s % 2 ^ 64 / 2 ^ (8 * 7) % 256,
       n % 2 ^ 32 / 2 ^ (8 * 0) % 256, n % 2 ^ 32 / 2 ^ (8 * 1) % 256,
       n % 2 ^ 32 / 2 ^ (8 * 2) % 256, n % 2 ^ 32 / 2 ^ (8 * 3) % 256,
       c % 2 ^ 32 / 2 ^ (8 * 0) % 256, c % 2 ^ 32 / 2 ^ (8 * 1) % 256,
       c % 2 ^ 32 / 2 ^ (8 * 2) % 256, c % 2 ^ 32 / 2 ^ (8 * 3) % 256] := by
  simp [mkSeed, List.range_succ]

/-- C6 counterexample: two calls whose counters differ by `2 ^ 32` (call 0 and
call `2 ^ 32`, with equal wall-clock fields) build the very same seed, because
the counter is truncated to a `u32` before being written into bytes 12-15; the
pseudorandom generator is a deterministic function of the seed, so those two
calls produce identical aliases, refuting pairwise distinctness for every `N`
and the justification that any two calls use different seeds. -/
theorem claim6_seed_wrap_counterexample :
    (((0 : Nat) == 2 ^ 32) = false) ∧ mkSeed 0 0 0 = mkSeed 0 0 (2 ^ 32) := by
  refine ⟨by norm_num, ?_⟩
  rw [mkSeed_eq, mkSeed_eq]
  norm_num

/-- C6 amended: across at most `2 ^ 32` sequential calls (counter values still
below the `u32` truncation), any two calls build different seeds, whatever the
wall-clock fields were — the counter bytes 12-15 already distinguish them.
Distinctness of the produced aliases themselves then holds only insofar as the
pseudorandom generator maps those distinct seeds to distinct strings. -/
theorem claim6_amended_distinct_seeds (secs nanos : Nat → Nat) (i j : Nat)
    (hi : i < 2 ^ 32) (hj : j < 2 ^ 32) (hij : i ≠ j) :
    mkSeed (secs i) (nanos i) i ≠ mkSeed (secs j) (nanos j) j := by
  intro h
  rw [mkSeed_eq, mkSeed_eq] at h
  simp only [List.cons.injEq, and_true] at h
  obtain ⟨-, -, -, -, -, -, -, -, -, -, -, -, h12, h13, h14, h15⟩ := h
  norm_num at h12 h13 h14 h15 hi hj
  omega

/-- C6 amended, witness: calls 0 and 1 with identical wall-clock fields still
get different seeds. -/
theorem claim6_amended_witness : mkSeed 5 7 0 ≠ mkSeed 5 7 1 :=
  claim6_amended_distinct_seeds (fun _ => 5) (fun _ => 7) 0 1 (by norm_num)
    (by norm_num) (by norm_num)

/-- Character-level fact: every character `mk_ident` produces is a lowercase
letter in a-y or a decimal digit. -/
theorem identChar_alnum (b : Bool) (r : Nat) :
    (isSeedLetter (identChar b r) || isSeedDigit (identChar b r)) = true := by
  cases b <;> simp [identChar, isSeedLetter, isSeedDigit] <;> omega

/-- Loop-level fact: every character of the produced identifier is a lowercase
letter in a-y or a decimal digit, for any generator behaviour. -/
theorem mkIdentChars_all_alnum {σ : Type} (gB : σ → Bool × σ) (gU : σ → Nat × σ)
    (n : Nat) : ∀ (i : Nat) (st : σ),
    (mkIdentChars gB gU n i st).all (fun ch => isSeedLetter ch || isSeedDigit ch) = true := by
  induction n with
  | zero => intro i st; rfl
  | succ n ih =>
    intro i st
    simp only [mkIdentChars, List.all_cons, Bool.and_eq_true]
    exact ⟨identChar_alnum _ _, ih _ _⟩

/-- Loop-level fact: the loop produces exactly as many characters as asked. -/
theorem mkIdentChars_length {σ : Type} (gB : σ → Bool × σ) (gU : σ → Nat × σ)
    (n : Nat) : ∀ (i : Nat) (st : σ), (mkIdentChars gB gU n i st).length = n := by
  induction n with
  | zero => intro i st; rfl
  | succ n ih => intro i st; simp only [mkIdentChars, List.length_cons, ih]

/-- Counter model fact: after `n` sequential calls the counter state is `n`. -/
theorem counterState_eq (n : Nat) : counterState n = n := by
  induction n with
  | zero => rfl
  | succ n ih => simp only [counterState, fetchAdd, ih]

/-- Counter model fact: the `n`-th call observes counter value `n`. -/
theorem countAt_eq (n : Nat) : countAt n = n := by
  simp only [countAt, fetchAdd, counterState_eq]

/-- C7: each invocation builds a 16-byte seed whose bytes 0-7 encode the
wall-clock seconds (little endian, `u64`), bytes 8-11 the sub-second
nanoseconds (`u32`) and bytes 12-15 the call counter truncated to `u32`; the
counter observed by sequential calls strictly increases; and the produced
identifier has exactly 16 characters, the first always a letter, the remaining
15 each a letter or a digit, for any deterministic generator seeded state. -/
theorem claim7_seed_and_output_shape {σ : Type} (s n c : Nat)
    (gB : σ → Bool × σ) (gU : σ → Nat × σ) (st : σ) :
    (mkSeed s n c).length = 16 ∧
    decodeLE ((mkSeed s n c).take 8) = s % 2 ^ 64 ∧
    decodeLE (((mkSeed s n c).drop 8).take 4) = n % 2 ^ 32 ∧
    decodeLE ((mkSeed s n c).drop 12) = c % 2 ^ 32 ∧
    (∀ i j : Nat, i < j → countAt i < countAt j) ∧
    (mkIdentString gB gU st).length = 16 ∧
    ((mkIdentString gB gU st).take 1).all isSeedLetter = true ∧
    ((mkIdentString gB gU st).drop 1).all
      (fun ch => isSeedLetter ch || isSeedDigit ch) = true := by
  refine ⟨?_, ?_, ?_, ?_, ?_, ?_, ?_, ?_⟩
  · rw [mkSeed_eq]; rfl
  · rw [mkSeed_eq]
    simp only [List.take_succ_cons, List.take_zero, decodeLE, List.foldr_cons, List.foldr_nil]
    norm_num
    omega
  · rw [mkSeed_eq]
    simp only [List.drop_succ_cons, List.drop_zero, List.take_succ_cons, List.take_zero,
      decodeLE, List.foldr_cons, List.foldr_nil]
    norm_num
    omega
  · rw [mkSeed_eq]
    simp only [List.drop_succ_cons, List.drop_zero, decodeLE, List.foldr_cons, List.foldr_nil]
    norm_num
    omega
  · intro i j hij
    simp only [countAt_eq]
    exact hij
  · exact mkIdentChars_length gB gU 16 0 st
  · simp only [mkIdentString, mkIdentChars]
    simp [identChar, isSeedLetter]
    omega
  · simp only [mkIdentString, mkIdentChars, List.drop_succ_cons, List.drop_zero]
    exact mkIdentChars_all_alnum gB gU 15 _ _

/-- C7 witness at a concrete generator: the strict counter growth instantiated
at calls 0 and 1, and the output shape at the toy generator. -/
theorem claim7_witness :
    countAt 0 < countAt 1 ∧ (mkIdentString toyBool toyU8 0).length = 16 :=
  ⟨(claim7_seed_and_output_shape 0 0 0 toyBool toyU8 0).2.2.2.2.1 0 1 (by norm_num),
   (claim7_seed_and_output_shape 0 0 0 toyBool toyU8 0).2.2.2.2.2.1⟩

/-- Helper for the argument parser: when every identifier is recognized and no
recognized identifier is repeated (also counting the already-seen flags), the
scan succeeds and the resulting flags record exactly which identifiers occur. -/
theorem parseArgsFrom_ok_val (l : List String) : ∀ (ix : Nat) (send sync : Bool),
    (∀ x ∈ l, x = "Send" ∨ x = "Sync") →
    l.count "Send" + (if send then 1 else 0) ≤ 1 →
    l.count "Sync" + (if sync then 1 else 0) ≤ 1 →
    parseArgsFrom l ix send sync
      = .ok ⟨send || l.contains "Send", sync || l.contains "Sync"⟩ := by
  induction l with
  | nil => intro ix send sync _ _ _; simp [parseArgsFrom]
  | cons x xs ih =>
    intro ix send sync hall hs hy
    have hx := hall x (List.mem_cons_self x xs)
    have htail : ∀ z ∈ xs, z = "Send" ∨ z = "Sync" :=
      fun z hz => hall z (List.mem_cons_of_mem x hz)
    rcases hx with hx | hx <;> subst hx
    · have hc1 : ("Send" :: xs).count "Send" = xs.count "Send" + 1 := by
        simp [List.count_cons]
      have hc2 : ("Send" :: xs).count "Sync" = xs.count "Sync" := by
        simp [List.count_cons]
      rw [hc1] at hs
      rw [hc2] at hy
      have hsend : send = false := by
        cases send
        · rfl
        · exfalso; simp at hs
      subst hsend
      have hrec := ih (ix + 1) true sync htail (by simp; omega) (by simpa using hy)
      have hstep : parseArgsFrom ("Send" :: xs) ix false sync
          = parseArgsFrom xs (ix + 1) true sync := by
        simp [parseArgsFrom]
      rw [hstep, hrec]
      simp [List.contains_cons]
    · have hc1 : ("Sync" :: xs).count "Sync" = xs.count "Sync" + 1 := by
        simp [List.count_cons]
      have hc2 : ("Sync" :: xs).count "Send" = xs.count "Send" := by
        simp [List.count_cons]
      rw [hc1] at hy
      rw [hc2] at hs
      have hsync : sync = false := by
        cases sync
        · rfl
        · exfalso; simp at hy
      subst hsync
      have hrec := ih (ix + 1) send true htail (by simpa using hs) (by simp; omega)
      have hstep : parseArgsFrom ("Sync" :: xs) ix send false
          = parseArgsFrom xs (ix + 1) send true := by
        simp [parseArgsFrom]
      rw [hstep, hrec]
      simp [List.contains_cons]

/-- Helper for the argument parser: a successful scan implies every identifier
was recognized and none repeated (also counting the already-seen flags). -/
theorem parseArgsFrom_ok_cond (l : List String) : ∀ (ix : Nat) (send sync : Bool) (a : Args),
    parseArgsFrom l ix send sync = .ok a →
    (∀ x ∈ l, x = "Send" ∨ x = "Sync") ∧
    l.count "Send" + (if send then 1 else 0) ≤ 1 ∧
    l.count "Sync" + (if sync then 1 else 0) ≤ 1 := by
  induction l with
  | nil =>
    intro ix send sync a _
    refine ⟨by simp, ?_, ?_⟩ <;> cases send <;> cases sync <;> simp
  | cons x xs ih =>
    intro ix send sync a h
    by_cases hx : x = "Send"
    · subst hx
      cases hsend : send
      · rw [hsend] at h
        rw [show parseArgsFrom ("Send" :: xs) ix false sync
            = parseArgsFrom xs (ix + 1) true sync from by simp [parseArgsFrom]] at h
        obtain ⟨h1, h2, h3⟩ := ih (ix + 1) true sync a h
        norm_num at h2
        refine ⟨?_, ?_, ?_⟩
        · intro z hz
          rcases List.mem_cons.mp hz with hz | hz
          · exact Or.inl hz
          · exact h1 z hz
        · simp [List.count_cons]
          omega
        · simpa [List.count_cons] using h3
      · rw [hsend] at h
        rw [show parseArgsFrom ("Send" :: xs) ix true sync
            = .error (ix, "this trait appears twice") from by simp [parseArgsFrom]] at h
        exact Except.noConfusion h
    · by_cases hx2 : x = "Sync"
      · subst hx2
        cases hsync : sync
        · rw [hsync] at h
          rw [show parseArgsFrom ("Sync" :: xs) ix send false
              = parseArgsFrom xs (ix + 1) send true from by simp [parseArgsFrom]] at h
          obtain ⟨h1, h2, h3⟩ := ih (ix + 1) send true a h
          norm_num at h3
          refine ⟨?_, ?_, ?_⟩
          · intro z hz
            rcases List.mem_cons.mp hz with hz | hz
            · exact Or.inr hz
            · exact h1 z hz
          · simpa [List.count_cons] using h2
          · simp [List.count_cons]
            omega
        · rw [hsync] at h
          rw [show parseArgsFrom ("Sync" :: xs) ix send true
              = .error (ix, "this trait appears twice") from by simp [parseArgsFrom]] at h
          exact Except.noConfusion h
      · rw [show parseArgsFrom (x :: xs) ix send sync
            = .error (ix, "expected one of: Send or Sync") from by
              simp [parseArgsFrom, hx, hx2]] at h
        exact Except.noConfusion h

/-- Helper for the argument parser: a failing scan pinpoints the first
offending identifier — everything before it is recognized and unrepeated, and
the diagnostic matches the offense found there (unknown identifier, or a
recognized identifier occurring for the second time). -/
theorem parseArgsFrom_err (l : List String) :
    ∀ (ix : Nat) (send sync : Bool) (k : Nat) (msg : String),
    parseArgsFrom l ix send sync = .error (k, msg) →
    ∃ d x, k = ix + d ∧ l.get? d = some x ∧
      (∀ y ∈ l.take d, y = "Send" ∨ y = "Sync") ∧
      (l.take d).count "Send" + (if send then 1 else 0) ≤ 1 ∧
      (l.take d).count "Sync" + (if sync then 1 else 0) ≤ 1 ∧
      ((¬x = "Send" ∧ ¬x = "Sync" ∧ msg = "expected one of: Send or Sync") ∨
       (x = "Send" ∧ (l.take d).count "Send" + (if send then 1 else 0) = 1 ∧
          msg = "this trait appears twice") ∨
       (x = "Sync" ∧ (l.take d).count "Sync" + (if sync then 1 else 0) = 1 ∧
          msg = "this trait appears twice")) := by
  induction l with
  | nil =>
    intro ix send sync k msg h
    exact absurd h (by simp [parseArgsFrom])
  | cons x xs ih =>
    intro ix send sync k msg h
    by_cases hx : x = "Send"
    · subst hx
      cases hsend : send
      · rw [hsend] at h
        rw [show parseArgsFrom ("Send" :: xs) ix false sync
            = parseArgsFrom xs (ix + 1) true sync from by simp [parseArgsFrom]] at h
        obtain ⟨d, z, hk, hget, hpre, hc1, hc2, hdisj⟩ := ih (ix + 1) true sync k msg h
        norm_num at hc1
        refine ⟨d + 1, z, by omega, by simpa using hget, ?_, ?_, ?_, ?_⟩
        · intro y hy
          rw [List.take_succ_cons] at hy
          rcases List.mem_cons.mp hy with hy | hy
          · exact Or.inl hy
          · exact hpre y hy
        · rw [List.take_succ_cons]
          simp [List.count_cons]
          omega
        · rw [List.take_succ_cons]
          simpa [List.count_cons] using hc2
        · rcases hdisj with h1 | h2 | h3
          · exact Or.inl h1
          · refine Or.inr (Or.inl ⟨h2.1, ?_, h2.2.2⟩)
            have hcc := h2.2.1
            norm_num at hcc
            rw [List.take_succ_cons]
            simp [List.count_cons]
            omega
          · refine Or.inr (Or.inr ⟨h3.1, ?_, h3.2.2⟩)
            have hcc := h3.2.1
            rw [List.take_succ_cons]
            simpa [List.count_cons] using hcc
      · rw [hsend] at h
        rw [show parseArgsFrom ("Send" :: xs) ix true sync
            = .error (ix, "this trait appears twice") from by simp [parseArgsFrom]] at h
        have hk : ix = k ∧ "this trait appears twice" = msg := by
          have := congrArg (fun e => match e with
            | Except.error p => p
            | Except.ok _ => (0, "")) h
          simp at this
          exact this
        refine ⟨0, "Send", by omega, rfl, by simp, ?_, ?_, ?_⟩
        · simp
        · cases sync <;> simp
        · exact Or.inr (Or.inl ⟨rfl, by simp, hk.2.symm⟩)
    · by_cases hx2 : x = "Sync"
      · subst hx2
        cases hsync : sync
        · rw [hsync] at h
          rw [show parseArgsFrom ("Sync" :: xs) ix send false
              = parseArgsFrom xs (ix + 1) send true from by simp [parseArgsFrom]] at h
          obtain ⟨d, z, hk, hget, hpre, hc1, hc2, hdisj⟩ := ih (ix + 1) send true k msg h
          norm_num at hc2
          refine ⟨d + 1, z, by omega, by simpa using hget, ?_, ?_, ?_, ?_⟩
          · intro y hy
            rw [List.take_succ_cons] at hy
            rcases List.mem_cons.mp hy with hy | hy
            · exact Or.inr hy
            · exact hpre y hy
          · rw [List.take_succ_cons]
            simpa [List.count_cons] using hc1
          · rw [List.take_succ_cons]
            simp [List.count_cons]
            omega
          · rcases hdisj with h1 | h2 | h3
            · exact Or.inl h1
            · refine Or.inr (Or.inl ⟨h2.1, ?_, h2.2.2⟩)
              have hcc := h2.2.1
              rw [List.take_succ_cons]
              simpa [List.count_cons] using hcc
            · refine Or.inr (Or.inr ⟨h3.1, ?_, h3.2.2⟩)
              have hcc := h3.2.1
              norm_num at hcc
              rw [List.take_succ_cons]
              simp [List.count_cons]
              omega
        · rw [hsync] at h
          rw [show parseArgsFrom ("Sync" :: xs) ix send true
              = .error (ix, "this trait appears twice") from by simp [parseArgsFrom]] at h
          have hk : ix = k ∧ "this trait appears twice" = msg := by
            have := congrArg (fun e => match e with
              | Except.error p => p
              | Except.ok _ => (0, "")) h
            simp at this
            exact this
          refine ⟨0, "Sync", by omega, rfl, by simp, ?_, ?_, ?_⟩
          · cases send <;> simp
          · simp
          · exact Or.inr (Or.inr ⟨rfl, by simp, hk.2.symm⟩)
      · rw [show parseArgsFrom (x :: xs) ix send sync
            = .error (ix, "expected one of: Send or Sync") from by
              simp [parseArgsFrom, hx, hx2]] at h
        have hk : ix = k ∧ "expected one of: Send or Sync" = msg := by
          have := congrArg (fun e => match e with
            | Except.error p => p
            | Except.ok _ => (0, "")) h
          simp at this
          exact this
        refine ⟨0, x, by omega, rfl, by simp, ?_, ?_, ?_⟩
        · cases send <;> simp
        · cases sync <;> simp
        · exact Or.inl ⟨hx, hx2, hk.2.symm⟩

/-- C4 counterexample: the list `Send, Send, Copy` contains the identifier
`Copy`, which is neither `Send` nor `Sync`, yet parsing fails with the
diagnostic `this trait appears twice` at index 1 (the repeated `Send`), not
with `expected one of: Send or Sync` at `Copy` — the two universal clauses of
the claim conflict on such lists, and the code resolves the conflict in favour
of the first offending identifier. -/
theorem claim4_duplicate_masks_unknown_counterexample :
    (["Send", "Send", "Copy"].contains "Copy") = true ∧
    (("Copy" : String) == "Send") = false ∧
    (("Copy" : String) == "Sync") = false ∧
    Args.parse ["Send", "Send", "Copy"] = .error (1, "this trait appears twice") := by
  refine ⟨by decide, by decide, by decide, rfl⟩

/-- C4 amended: parsing succeeds exactly when every identifier is `Send` or
`Sync` and neither appears twice (so exactly the four lists up to order), and
the resulting flags record which identifiers occur; on failure the diagnostic
is located at the first offending identifier — `expected one of: Send or Sync`
there when it is unknown, `this trait appears twice` there when it is a
recognized identifier already seen — and the pipeline emits no code. -/
theorem claim4_amended_argument_parsing (l : List String) :
    (Args.parse l = .ok ⟨l.contains "Send", l.contains "Sync"⟩ ↔
      ((∀ x ∈ l, x = "Send" ∨ x = "Sync") ∧ l.count "Send" ≤ 1 ∧ l.count "Sync" ≤ 1)) ∧
    (∀ a, Args.parse l = .ok a → a = ⟨l.contains "Send", l.contains "Sync"⟩) ∧
    (∀ k msg, Args.parse l = .error (k, msg) →
      ∃ x, l.get? k = some x ∧
        (∀ y ∈ l.take k, y = "Send" ∨ y = "Sync") ∧
        (l.take k).count "Send" ≤ 1 ∧ (l.take k).count "Sync" ≤ 1 ∧
        ((¬x = "Send" ∧ ¬x = "Sync" ∧ msg = "expected one of: Send or Sync") ∨
         (x = "Send" ∧ (l.take k).count "Send" = 1 ∧ msg = "this trait appears twice") ∨
         (x = "Sync" ∧ (l.take k).count "Sync" = 1 ∧ msg = "this trait appears twice"))) ∧
    (∀ (i : ItemStatic) (a : String) (k : Nat) (msg : String),
      Args.parse l = .error (k, msg) →
      Singleton (.staticItem i) l a = .error (.argErr k msg)) := by
  refine ⟨⟨?_, ?_⟩, ?_, ?_, ?_⟩
  · intro h
    have hc := parseArgsFrom_ok_cond l 0 false false _ h
    norm_num at hc
    exact hc
  · rintro ⟨h1, h2, h3⟩
    have hv := parseArgsFrom_ok_val l 0 false false h1 (by norm_num; omega) (by norm_num; omega)
    simpa using hv
  · intro a h
    have hc := parseArgsFrom_ok_cond l 0 false false a h
    norm_num at hc
    have hv := parseArgsFrom_ok_val l 0 false false hc.1 (by norm_num; omega) (by norm_num; omega)
    have heq := (show parseArgsFrom l 0 false false = Except.ok a from h).symm.trans hv
    have hinj := Except.ok.inj heq
    simpa using hinj
  · intro k msg h
    obtain ⟨d, x, hk, hget, hpre, hc1, hc2, hdisj⟩ := parseArgsFrom_err l 0 false false k msg h
    have hd : d = k := by omega
    subst hd
    norm_num at hc1 hc2 hdisj
    exact ⟨x, hget, hpre, hc1, hc2, hdisj⟩
  · intro i a k msg h
    unfold Singleton
    rw [show Args.parse l = .error (k, msg) from h]
    rfl

/-- C4 amended, witness: the list `Sync, Send` (both identifiers, reversed
order) parses successfully with both flags set. -/
theorem claim4_amended_witness :
    Args.parse ["Sync", "Send"] = .ok ⟨true, true⟩ :=
  (claim4_amended_argument_parsing ["Sync", "Send"]).1.mpr (by decide)

/-- C10: every character of every produced alias is a lowercase letter in the
25-letter range a-y or a decimal digit; in particular the letter z (code 122)
and uppercase letters (codes 65-90) never appear. -/
theorem claim10_alias_alphabet {σ : Type} (gB : σ → Bool × σ) (gU : σ → Nat × σ) (st : σ) :
    ((mkIdentString gB gU st).all fun ch => isSeedLetter ch || isSeedDigit ch) = true ∧
    ((mkIdentString gB gU st).all fun ch => !(ch == 122)) = true ∧
    ((mkIdentString gB gU st).all fun ch => !(65 ≤ ch && ch ≤ 90)) = true := by
  have h := List.all_eq_true.mp (mkIdentChars_all_alnum gB gU 16 0 st)
  refine ⟨mkIdentChars_all_alnum gB gU 16 0 st, ?_, ?_⟩
  · refine List.all_eq_true.mpr fun x hx => ?_
    have hx2 := h x hx
    simp only [isSeedLetter, isSeedDigit, Bool.or_eq_true, Bool.and_eq_true,
      decide_eq_true_eq] at hx2
    have hne : x ≠ 122 := by omega
    simp [hne]
  · refine List.all_eq_true.mpr fun x hx => ?_
    have hx2 := h x hx
    simp only [isSeedLetter, isSeedDigit, Bool.or_eq_true, Bool.and_eq_true,
      decide_eq_true_eq] at hx2
    simp only [Bool.not_eq_true', Bool.and_eq_false_iff, decide_eq_false_iff_not, not_le]
    omega
